import Mathlib

/-!
Verification of the Postgres UDF bridge (`ibis/sql/postgres/udf/api.py`).

The development shallowly embeds the module's pure computations:
the type-catalog dictionaries (lines 16-44), the UDF-node name factory
(`create_udf_node`, lines 47-64), `existing_udf` (lines 67-129), the
`LineNums` AST visitor and `remove_decorators` (lines 132-170), and
`func_to_udf` (lines 173-256).  Python dictionaries are embedded as
association lists with insertion-order semantics; raised exceptions are
embedded as `Except` errors; the database connection's `execute` is
embedded as a trace of submitted statement strings.
-/

namespace IbisUdf

/-! ### Python dict semantics

A Python `dict` keeps insertion order; assigning to an existing key
replaces the value in place, assigning to a fresh key appends. -/

/-- Assignment `d[k] = v` on an insertion-ordered dictionary: replace the
value of an existing key in place, append a fresh key. -/
def dictInsert {K V : Type} [DecidableEq K] : List (K × V) → K → V → List (K × V)
  | [], k, v => [(k, v)]
  | a :: d, k, v => if a.1 = k then (a.1, v) :: d else a :: dictInsert d k v

/-- Lookup `d[k]` on a dictionary; `none` embeds a raised `KeyError`. -/
def dictGet {K V : Type} [DecidableEq K] : List (K × V) → K → Option V
  | [], _ => none
  | a :: d, k => if a.1 = k then some a.2 else dictGet d k

theorem dictGetInsert {K V : Type} [DecidableEq K] (d : List (K × V)) (k k' : K) (v : V) :
    dictGet (dictInsert d k v) k' = if k' = k then some v else dictGet d k' := by
  induction d with
  | nil =>
    by_cases h : k' = k
    · simp [dictInsert, dictGet, h]
    · have hkk' : ¬ k = k' := fun e => h e.symm
      simp [dictInsert, dictGet, h, hkk']
  | cons a d ih =>
    by_cases ha : a.1 = k
    · by_cases h : k' = k
      · subst h
        simp [dictInsert, dictGet, ha]
      · have hak' : ¬ a.1 = k' := by rw [ha]; exact fun e => h e.symm
        have hkk' : ¬ k = k' := fun e => h e.symm
        simp [dictInsert, dictGet, ha, h, hak', hkk']
    · by_cases hak' : a.1 = k'
      · have h : ¬ k' = k := fun e => ha (e ▸ hak')
        simp [dictInsert, dictGet, ha, hak', h]
      · simp [dictInsert, dictGet, ha, hak', ih]

/-! ### Type catalog (api.py lines 16-44) -/

/-- The Python host types appearing as keys of `pytype_sql` /
`pytype_ibistype`: `bool, int, float, Decimal, bytes, str`. -/
inductive PyType : Type where
  | bool | int | float | decimal | bytes | str
deriving DecidableEq, Repr

/-- The value-kind tags of the abstract types the module constructs
(`datatypes.Boolean(), Int32(), Float(), Binary(), String()`). -/
inductive IbisKind : Type where
  | boolean | int32 | float | binary | string
deriving DecidableEq, Repr

/-- Modelled from the spec: an abstract type of the expression system is
"a value-kind tag plus any parametrization needed for round-tripping"
(spec section 3).  The `datatypes` module itself is not under `src/`;
there every datatype additionally carries a nullability parametrization,
equality and hashing compare both the tag and the parametrization, and
the bare constructor calls used by the catalog (`datatypes.String()`,
etc.) produce the default (nullable) parametrization. -/
structure IbisType : Type where
  kind : IbisKind
  nullable : Bool
deriving DecidableEq, Repr

/-- The default-parametrization abstract type built by `datatypes.<Kind>()`. -/
def mkIbis (k : IbisKind) : IbisType := ⟨k, true⟩

/-- A text-like abstract type is one whose value-kind tag is the string tag. -/
def isTextLike (t : IbisType) : Bool := t.kind = IbisKind.string

/-- api.py line 20: `sql_default_type = 'VARCHAR'`. -/
def sql_default_type : String := "VARCHAR"

/-- api.py lines 22-29: the `pytype_sql` dict literal.  Its six keys are
exactly the `PyType` enumeration, so it is embedded as a total function. -/
def pytype_sql : PyType → String
  | .bool => "BOOLEAN"
  | .int => "INTEGER"
  | .float => "DOUBLE"
  | .decimal => "NUMERIC"
  | .bytes => "BYTEA"
  | .str => sql_default_type

/-- api.py lines 31-38: the `pytype_ibistype` dict literal, kept as an
ordered item list because its inversion depends on insertion order. -/
def pytype_ibistype : List (PyType × IbisType) :=
  [ (.bool, mkIbis .boolean),
    (.int, mkIbis .int32),
    (.float, mkIbis .float),
    (.decimal, mkIbis .float),
    (.bytes, mkIbis .binary),
    (.str, mkIbis .string) ]

/-- api.py line 40: `ibistype_pytype = {v: k for k, v in pytype_ibistype.items()}`. -/
def ibistype_pytype : List (IbisType × PyType) :=
  pytype_ibistype.foldl (fun d kv => dictInsert d kv.2 kv.1) []

/-- api.py lines 41-44: `ibistype_sqltype = {ibistype: pytype_sql[pytype] ...}`. -/
def ibistype_sqltype : List (IbisType × String) :=
  ibistype_pytype.map (fun kv => (kv.1, pytype_sql kv.2))

/-- The lookup `ibistype_sqltype[t]` (api.py lines 223 and 227);
`none` embeds a raised `KeyError`. -/
def sqlTypeNameOf (t : IbisType) : Option String := dictGet ibistype_sqltype t

/-! ### Claims C9 and C4 -/

/-- Claim C9: because the host types `float` and `Decimal` both map to the
abstract `Float()` type and `ibistype_pytype` is built by inverting that
mapping (the later `Decimal` item overwriting the `float` item in place),
the catalog maps the abstract floating-point type to `'NUMERIC'`, not
`'DOUBLE'`; `'DOUBLE'` is unreachable through the catalog, and the
rendered parameter entry / return type for a float input or output is
always `NUMERIC`. -/
theorem claim_C9 :
    sqlTypeNameOf (mkIbis .float) = some "NUMERIC" ∧
    (∀ t : IbisType, sqlTypeNameOf t ≠ some "DOUBLE") ∧
    (∀ nm : String, (sqlTypeNameOf (mkIbis .float)).map (fun ty => nm ++ " " ++ ty)
        = some (nm ++ " NUMERIC")) := by
  refine ⟨rfl, ?_, ?_⟩
  · intro t
    rcases t with ⟨k, b⟩
    cases k <;> cases b <;> decide
  · intro nm
    show some ((nm ++ " ") ++ "NUMERIC") = some (nm ++ " NUMERIC")
    rw [String.append_assoc]
    rfl

/-- Claim C4 counterexample: the non-nullable text abstract type has no
entry in the catalog, and the lookup fails (`KeyError`, embedded as
`none`) instead of yielding `'VARCHAR'`. -/
theorem claim_C4_counterexample :
    isTextLike ⟨IbisKind.string, false⟩ = true ∧
    sqlTypeNameOf ⟨IbisKind.string, false⟩ = none ∧
    ¬ sqlTypeNameOf ⟨IbisKind.string, false⟩ = some "VARCHAR" := by
  refine ⟨rfl, rfl, ?_⟩
  decide

/-- Claim C4 (amended): the catalog has no defaulting fallback.  The one
text-like abstract type with an entry — the default-parametrization
string type — maps to `'VARCHAR'`, which is the `sql_default_type`
constant; a text-like abstract type absent from the catalog (the
non-nullable string type) makes the lookup fail rather than default. -/
theorem claim_C4_amended :
    sqlTypeNameOf (mkIbis .string) = some sql_default_type ∧
    sql_default_type = "VARCHAR" ∧
    sqlTypeNameOf ⟨IbisKind.string, false⟩ = none := by
  exact ⟨rfl, rfl, rfl⟩

/-! ### Decimal rendering of `Nat`

`'{:d}'.format(k)` in Python and `Nat.repr` in the embedding both render
`k` in decimal.  The factory's disambiguation argument (claims C5, C10)
needs that this rendering is injective and contains no underscore. -/

/-- The decimal digit list of `n`, most significant first (the
accumulator-free description of core's `Nat.toDigitsCore`). -/
def decDigits (n : Nat) : List Char :=
  if n < 10 then [Nat.digitChar n]
  else decDigits (n / 10) ++ [Nat.digitChar (n % 10)]
decreasing_by exact Nat.div_lt_self (by omega) (by omega)

theorem decDigitsLt {n : Nat} (h : n < 10) : decDigits n = [Nat.digitChar n] := by
  rw [decDigits, if_pos h]

theorem decDigitsGe {n : Nat} (h : ¬ n < 10) :
    decDigits n = decDigits (n / 10) ++ [Nat.digitChar (n % 10)] := by
  rw [decDigits, if_neg h]

theorem decDigitsNeNil (n : Nat) : decDigits n ≠ [] := by
  by_cases h : n < 10
  · rw [decDigitsLt h]; simp
  · rw [decDigitsGe h]; simp

theorem toDigitsCoreEqDecDigits :
    ∀ (fuel n : Nat) (ds : List Char), n < fuel →
      Nat.toDigitsCore 10 fuel n ds = decDigits n ++ ds := by
  intro fuel
  induction fuel with
  | zero => intro n ds h; omega
  | succ f ih =>
    intro n ds h
    simp only [Nat.toDigitsCore]
    split
    · next hz =>
      have hn : n < 10 := Nat.div_eq_zero_iff (by omega : 0 < 10) |>.mp hz
      rw [decDigitsLt hn, Nat.mod_eq_of_lt hn]
      simp
    · next hz =>
      have hge : ¬ n < 10 := fun hlt => hz (Nat.div_eq_of_lt hlt)
      have hdiv : n / 10 < f := by
        have h1 : n / 10 < n := Nat.div_lt_self (by omega) (by omega)
        omega
      rw [ih (n / 10) _ hdiv, decDigitsGe hge]
      simp

theorem reprEqDecDigits (n : Nat) : Nat.repr n = (decDigits n).asString := by
  show (Nat.toDigits 10 n).asString = _
  rw [Nat.toDigits, toDigitsCoreEqDecDigits (n + 1) n [] (by omega), List.append_nil]

theorem digitCharNotUnderscore : ∀ m < 10, Nat.digitChar m ≠ '_' := by decide

theorem digitCharInjLt : ∀ a < 10, ∀ b < 10,
    Nat.digitChar a = Nat.digitChar b → a = b := by decide

theorem decDigitsNoUnderscore (n : Nat) : '_' ∉ decDigits n := by
  induction n using Nat.strong_induction_on with
  | _ n ih =>
    by_cases hn : n < 10
    · rw [decDigitsLt hn]
      simp only [List.mem_singleton]
      exact fun h => digitCharNotUnderscore n hn h.symm
    · rw [decDigitsGe hn]
      intro hmem
      rcases List.mem_append.mp hmem with hmem | hmem
      · exact ih (n / 10) (Nat.div_lt_self (by omega) (by omega)) hmem
      · have hch : Nat.digitChar (n % 10) = '_' := (List.mem_singleton.mp hmem).symm
        exact digitCharNotUnderscore (n % 10) (Nat.mod_lt _ (by omega)) hch

theorem decDigitsInj : ∀ m n : Nat, decDigits m = decDigits n → m = n := by
  intro m
  induction m using Nat.strong_induction_on with
  | _ m ih =>
    intro n h
    by_cases hm : m < 10 <;> by_cases hn : n < 10
    · rw [decDigitsLt hm, decDigitsLt hn] at h
      exact digitCharInjLt m hm n hn (List.singleton_inj.mp h)
    · rw [decDigitsLt hm, decDigitsGe hn] at h
      exfalso
      have hlen := congrArg List.length h
      have hpos : 0 < (decDigits (n / 10)).length :=
        List.length_pos.mpr (decDigitsNeNil (n / 10))
      simp only [List.length_append, List.length_singleton] at hlen
      omega
    · rw [decDigitsGe hm, decDigitsLt hn] at h
      exfalso
      have hlen := congrArg List.length h
      have hpos : 0 < (decDigits (m / 10)).length :=
        List.length_pos.mpr (decDigitsNeNil (m / 10))
      simp only [List.length_append, List.length_singleton] at hlen
      omega
    · rw [decDigitsGe hm, decDigitsGe hn] at h
      have hrev := congrArg List.reverse h
      simp only [List.reverse_append, List.reverse_singleton, List.singleton_append,
        List.cons.injEq] at hrev
      obtain ⟨hdigit, hrest⟩ := hrev
      have hmod : m % 10 = n % 10 :=
        digitCharInjLt _ (Nat.mod_lt _ (by omega)) _ (Nat.mod_lt _ (by omega)) hdigit
      have hdiveq : decDigits (m / 10) = decDigits (n / 10) :=
        List.reverse_injective hrest
      have hdiv : m / 10 = n / 10 :=
        ih (m / 10) (Nat.div_lt_self (by omega) (by omega)) (n / 10) hdiveq
      omega

theorem reprInj {m n : Nat} (h : Nat.repr m = Nat.repr n) : m = n := by
  rw [reprEqDecDigits, reprEqDecDigits] at h
  have hdata := congrArg String.data h
  simp only [List.asString] at hdata
  exact decDigitsInj m n hdata

theorem reprNoUnderscore (n : Nat) : '_' ∉ (Nat.repr n).data := by
  rw [reprEqDecDigits]
  exact decDigitsNoUnderscore n

/-- Splitting at an underscore is unambiguous when the parts after the
underscore are underscore-free (stated with the underscore-free parts in
front, for use on reversed strings). -/
theorem appendUnderscoreInj :
    ∀ (x₁ x₂ y₁ y₂ : List Char), '_' ∉ x₁ → '_' ∉ x₂ →
      x₁ ++ '_' :: y₁ = x₂ ++ '_' :: y₂ → x₁ = x₂ ∧ y₁ = y₂ := by
  intro x₁
  induction x₁ with
  | nil =>
    intro x₂ y₁ y₂ _ hx₂ h
    cases x₂ with
    | nil =>
      simp only [List.nil_append, List.cons.injEq] at h
      exact ⟨rfl, h.2⟩
    | cons c cs =>
      simp only [List.nil_append, List.cons_append, List.cons.injEq] at h
      exact absurd (h.1 ▸ List.mem_cons_self c cs) hx₂
  | cons c cs ihc =>
    intro x₂ y₁ y₂ hx₁ hx₂ h
    cases x₂ with
    | nil =>
      simp only [List.nil_append, List.cons_append, List.cons.injEq] at h
      exact absurd (h.1.symm ▸ List.mem_cons_self c cs) hx₁
    | cons d ds =>
      simp only [List.cons_append, List.cons.injEq] at h
      have hx₁' : '_' ∉ cs := fun hm => hx₁ (List.mem_cons_of_mem c hm)
      have hx₂' : '_' ∉ ds := fun hm => hx₂ (List.mem_cons_of_mem d hm)
      obtain ⟨hcs, hy⟩ := ihc ds y₁ y₂ hx₁' hx₂' h.2
      exact ⟨by rw [h.1, hcs], hy⟩

/-! ### Errors raised by the module

Python exceptions are embedded as `Except` errors. -/

inductive UdfError : Type where
  | valueError (msg : String)
  | notImplementedError (msg : String)
  | keyError
  | typeError
deriving DecidableEq, Repr

/-! ### UDF node factory (api.py lines 16, 47-64) -/

/-- The registration-time mutable state: `_udf_name_cache` (line 16,
a `defaultdict(itertools.count)`, embedded as the next counter value per
name with default 0) and the compiler's translation table (the external
names passed to `add_operation`, in registration order). -/
structure UdfState : Type where
  cache : List (String × Nat)
  registry : List String
deriving DecidableEq, Repr

/-- Process start: empty counter table, empty translation table. -/
def initUdfState : UdfState := ⟨[], []⟩

/-- `'{}_{:d}'.format(name, definition)` (api.py line 63). -/
def extName (name : String) (definition : Nat) : String :=
  name ++ "_" ++ Nat.repr definition

/-- The value `next(_udf_name_cache[name])` would yield. -/
def cacheCount (c : List (String × Nat)) (name : String) : Nat :=
  (dictGet c name).getD 0

/-- The node kind minted by `create_udf_node`: a fresh subclass of
`PostgresUDFNode` whose internal identity is the `external_name` and
whose class members are the given ordered field keys. -/
structure UdfNode : Type where
  externalName : String
  fieldKeys : List String
deriving DecidableEq, Repr

/-- api.py lines 47-64: `create_udf_node(name, fields)`.  Consumes one
integer from the per-name counter and mints `type(external_name, ...)`. -/
def create_udf_node (st : UdfState) (name : String) (fieldKeys : List String) :
    UdfNode × UdfState :=
  let definition := cacheCount st.cache name
  let external_name := extName name definition
  (⟨external_name, fieldKeys⟩,
    { st with cache := dictInsert st.cache name (definition + 1) })

/-- `add_operation(udf_node, _translate_udf)` (compiler collaborator):
record the freshly minted node kind in the translation table. -/
def add_operation (st : UdfState) (externalName : String) : UdfState :=
  { st with registry := st.registry ++ [externalName] }

/-! ### existing_udf (api.py lines 67-129) -/

/-- The `ValueError` message of api.py lines 91-96. -/
def mismatchMsg (nIn nPar : Nat) : String :=
  "Length mismatch in arguments to existing_udf: len(input_types)=" ++
    Nat.repr nIn ++ ", len(parameters)=" ++ Nat.repr nPar

/-- The fabricated name `'v{}'.format(i)` (api.py line 89). -/
def vName (i : Nat) : String := "v" ++ Nat.repr i

/-- api.py lines 88-96: fabricate `['v0', 'v1', ...]` when no parameter
names are given, otherwise validate the count. -/
def resolveParams (parameters : Option (List String))
    (input_types : List IbisType) : Except UdfError (List String) :=
  match parameters with
  | none => .ok ((List.range input_types.length).map vName)
  | some ps =>
    if input_types.length ≠ ps.length then
      .error (.valueError (mismatchMsg input_types.length ps.length))
    else
      .ok ps

/-- Ordered-dict key insertion: `d[k] = v` leaves the key sequence
unchanged when `k` is present and appends it otherwise. -/
def dictKeyInsert (ks : List String) (k : String) : List String :=
  if k ∈ ks then ks else ks ++ [k]

/-- api.py lines 98-109: the keys of `udf_node_fields` — one `Arg` member
per `zip(parameters, input_types)` item, the `output_type` member, and
the subsequently assigned `resolve_name` member. -/
def udfNodeFieldKeys (parameters : List String) (input_types : List IbisType) :
    List String :=
  let base := (parameters.zip input_types).map Prod.fst ++ ["output_type"]
  dictKeyInsert (base.foldl dictKeyInsert []) "resolve_name"

/-- The `wrapped` callable returned by `existing_udf`: it instantiates the
minted node kind; the closure keeps the node, the logical name, the schema
and the declared types. -/
structure Wrapper : Type where
  node : UdfNode
  name : String
  schema : Option String
  inputTypes : List IbisType
  outputType : IbisType
deriving DecidableEq, Repr

/-- api.py lines 67-129: `existing_udf`.  A raised exception leaves the
process-wide state exactly as it was (the raise precedes every mutation). -/
def existing_udf (st : UdfState) (name : String) (input_types : List IbisType)
    (output_type : IbisType) (schema : Option String)
    (parameters : Option (List String)) : Except UdfError Wrapper × UdfState :=
  match resolveParams parameters input_types with
  | .error e => (.error e, st)
  | .ok ps =>
    let keys := udfNodeFieldKeys ps input_types
    let r := create_udf_node st name keys
    let st2 := add_operation r.2 r.1.externalName
    (.ok ⟨r.1, name, schema, input_types, output_type⟩, st2)

/-- A sequence of factory calls (one per listed name, the claim's "process
lifetime"), returning the minted internal identities in order. -/
def runFactory : List String → UdfState → List String × UdfState
  | [], st => ([], st)
  | name :: rest, st =>
    let r := create_udf_node st name []
    let rr := runFactory rest r.2
    (r.1.externalName :: rr.1, rr.2)

/-! ### Injectivity of the minted identities -/

theorem stringDataInj {a b : String} (h : a.data = b.data) : a = b :=
  String.ext h

theorem extNameInj {a b : String} {i j : Nat} (h : extName a i = extName b j) :
    a = b ∧ i = j := by
  have hdata := congrArg String.data h
  simp only [extName, String.data_append] at hdata
  have hdata' : a.data ++ '_' :: (Nat.repr i).data =
      b.data ++ '_' :: (Nat.repr j).data := by
    simpa using hdata
  have hrev := congrArg List.reverse hdata'
  simp only [List.reverse_append, List.reverse_cons, List.append_assoc,
    List.singleton_append] at hrev
  have hni : '_' ∉ (Nat.repr i).data.reverse :=
    fun hm => reprNoUnderscore i (List.mem_reverse.mp hm)
  have hnj : '_' ∉ (Nat.repr j).data.reverse :=
    fun hm => reprNoUnderscore j (List.mem_reverse.mp hm)
  obtain ⟨hd, hn⟩ := appendUnderscoreInj _ _ _ _ hni hnj hrev
  refine ⟨stringDataInj (List.reverse_injective hn), ?_⟩
  exact reprInj (stringDataInj (List.reverse_injective hd))

theorem vNameInj {i j : Nat} (h : vName i = vName j) : i = j := by
  have hdata := congrArg String.data h
  simp only [vName, String.data_append] at hdata
  have hd : (Nat.repr i).data = (Nat.repr j).data := by
    simpa using hdata
  exact reprInj (stringDataInj hd)

theorem vNamesPairwiseNe (n : Nat) :
    ((List.range n).map vName).Pairwise (· ≠ ·) := by
  rw [List.pairwise_map]
  exact (List.pairwise_lt_range n).imp
    (fun hlt heq => absurd (vNameInj heq) (Nat.ne_of_lt hlt))

/-! ### Behaviour of the factory over a whole call sequence -/

theorem runFactoryLength (calls : List String) (st : UdfState) :
    (runFactory calls st).1.length = calls.length := by
  induction calls generalizing st with
  | nil => rfl
  | cons c cs ih => simp [runFactory, ih]

theorem runFactorySpec (calls : List String) :
    ∀ (st : UdfState) (i : Nat), i < calls.length →
      (runFactory calls st).1.getD i "" =
        extName (calls.getD i "")
          (cacheCount st.cache (calls.getD i "") +
            (calls.take i).count (calls.getD i "")) := by
  induction calls with
  | nil => intro st i h; simp at h
  | cons c cs ih =>
    intro st i h
    match i with
    | 0 =>
      simp [runFactory, create_udf_node]
    | i + 1 =>
      have hi : i < cs.length := by simpa using h
      simp only [runFactory, create_udf_node, List.getD_cons_succ, List.take_succ_cons]
      rw [ih { st with cache := dictInsert st.cache c (cacheCount st.cache c + 1) } i hi]
      set x := cs.getD i "" with hx
      have hcache : cacheCount (dictInsert st.cache c (cacheCount st.cache c + 1)) x =
          cacheCount st.cache x + (if x = c then 1 else 0) := by
        unfold cacheCount
        rw [dictGetInsert]
        by_cases hxc : x = c
        · subst hxc
          simp
        · simp [hxc]
      rw [hcache, List.count_cons]
      have hcnt : (if (c == x) = true then 1 else 0) = if x = c then 1 else 0 := by
        by_cases hxc : x = c
        · subst hxc
          simp
        · have hcx : ¬ c = x := fun e => hxc e.symm
          simp [hxc, hcx]
      rw [hcnt]
      congr 1
      omega

theorem runFactoryCountLt (calls : List String) {i j : Nat}
    (hij : i < j) (hj : j < calls.length)
    (hname : calls.getD i "" = calls.getD j "") :
    (calls.take i).count (calls.getD i "") <
      (calls.take j).count (calls.getD j "") := by
  have hi : i < calls.length := Nat.lt_trans hij hj
  have hitake : i < (calls.take j).length := by
    rw [List.length_take]
    omega
  have hdecomp : calls.take j = calls.take i ++ (calls.take j).drop i := by
    conv_lhs => rw [← List.take_append_drop i (calls.take j)]
    rw [List.take_take, Nat.min_eq_left (Nat.le_of_lt hij)]
  have hdrop : (calls.take j).drop i = calls.getD i "" :: (calls.take j).drop (i + 1) := by
    rw [List.drop_eq_getElem_cons hitake]
    congr 1
    rw [List.getElem_take]
    exact (List.getD_eq_getElem calls "" hi).symm
  rw [← hname, hdecomp, List.count_append, hdrop, List.count_cons_self]
  have hmono : (calls.take i).count (calls.getD i "") ≤
      (calls.take i).count (calls.getD i "") +
        ((calls.take j).drop (i + 1)).count (calls.getD i "") := Nat.le_add_right _ _
  omega

/-! ### Claim C5 -/

/-- Claim C5: starting from process start, the i-th factory call of a call
sequence mints the internal identity `name_k` where `name` is that call's
logical name and `k` counts the earlier calls with the same name; and the
identities minted over the whole sequence are pairwise distinct, whether
the logical names coincide or not. -/
theorem claim_C5 (calls : List String) :
    (∀ i, i < calls.length →
        (runFactory calls initUdfState).1.getD i "" =
          extName (calls.getD i "") ((calls.take i).count (calls.getD i ""))) ∧
    (runFactory calls initUdfState).1.Pairwise (· ≠ ·) := by
  have hspec : ∀ i, i < calls.length →
      (runFactory calls initUdfState).1.getD i "" =
        extName (calls.getD i "") ((calls.take i).count (calls.getD i "")) := by
    intro i h
    have h0 := runFactorySpec calls initUdfState i h
    simpa [initUdfState, cacheCount, dictGet] using h0
  refine ⟨hspec, ?_⟩
  rw [List.pairwise_iff_getElem]
  intro i j hi hj hij
  have hlen := runFactoryLength calls initUdfState
  have hi' : i < calls.length := by omega
  have hj' : j < calls.length := by omega
  have gi : (runFactory calls initUdfState).1[i] =
      extName (calls.getD i "") ((calls.take i).count (calls.getD i "")) := by
    rw [← List.getD_eq_getElem _ "" hi]
    exact hspec i hi'
  have gj : (runFactory calls initUdfState).1[j] =
      extName (calls.getD j "") ((calls.take j).count (calls.getD j "")) := by
    rw [← List.getD_eq_getElem _ "" hj]
    exact hspec j hj'
  rw [gi, gj]
  intro heq
  obtain ⟨hname, hcount⟩ := extNameInj heq
  have hlt := runFactoryCountLt calls hij hj' hname
  omega

/-- Witness for claim C5: the concrete call sequence `f, f, g` mints
`f_1` at position 1, and all three identities are pairwise distinct. -/
theorem claim_C5_witness :
    (runFactory ["f", "f", "g"] initUdfState).1.getD 1 "" = "f_1" ∧
    (runFactory ["f", "f", "g"] initUdfState).1.Pairwise (· ≠ ·) := by
  have h := claim_C5 ["f", "f", "g"]
  refine ⟨?_, h.2⟩
  rw [h.1 1 (by decide)]
  rfl

/-! ### Claim C6 -/

/-- Claim C6: `existing_udf` with an explicit parameter list whose length
differs from the input-type list fails with the `ValueError` and performs
no registration side effect — the returned state is exactly the input
state: counter table and translation table untouched, and no node kind
reaches `create_udf_node`. -/
theorem claim_C6 (st : UdfState) (name : String) (input_types : List IbisType)
    (output_type : IbisType) (schema : Option String) (ps : List String)
    (h : ps.length ≠ input_types.length) :
    existing_udf st name input_types output_type schema (some ps) =
      (.error (.valueError (mismatchMsg input_types.length ps.length)), st) := by
  have h' : input_types.length ≠ ps.length := fun e => h e.symm
  simp [existing_udf, resolveParams, h']

/-- Witness for claim C6 at a concrete mismatched call. -/
theorem claim_C6_witness :
    existing_udf initUdfState "mult_a_b" [mkIbis .int32] (mkIbis .int32) none
        (some ["a", "b"]) =
      (.error (.valueError (mismatchMsg 1 2)), initUdfState) :=
  claim_C6 initUdfState "mult_a_b" [mkIbis .int32] (mkIbis .int32) none
    ["a", "b"] (by decide)

/-! ### Claim C10 -/

theorem vNameHeadData (i : Nat) : (vName i).data = 'v' :: (Nat.repr i).data := by
  rw [vName, String.data_append]
  rfl

theorem vNameNeOfHead {s : String} {c : Char} {rest : List Char}
    (hs : s.data = c :: rest) (hc : c ≠ 'v') (i : Nat) : vName i ≠ s := by
  intro h
  have hd := congrArg String.data h
  rw [vNameHeadData, hs] at hd
  injection hd with h1 _
  exact hc h1.symm

theorem foldKeyInsertOfPairwise :
    ∀ (ks acc : List String), ks.Pairwise (· ≠ ·) → (∀ k ∈ ks, k ∉ acc) →
      ks.foldl dictKeyInsert acc = acc ++ ks := by
  intro ks
  induction ks with
  | nil => intro acc _ _; simp
  | cons k ks ih =>
    intro acc hp hdisj
    have hk : k ∉ acc := hdisj k (List.mem_cons_self k ks)
    have hstep : dictKeyInsert acc k = acc ++ [k] := by
      simp [dictKeyInsert, hk]
    obtain ⟨hhead, htail⟩ := List.pairwise_cons.mp hp
    rw [List.foldl_cons, hstep, ih (acc ++ [k]) htail ?disj]
    · simp
    case disj =>
      intro k' hk' hmem
      rcases List.mem_append.mp hmem with hmem | hmem
      · exact hdisj k' (List.mem_cons_of_mem _ hk') hmem
      · exact (hhead k' hk') (List.mem_singleton.mp hmem).symm

theorem udfNodeFieldKeysFabricated (n : Nat) (ts : List IbisType)
    (hlen : ts.length = n) :
    udfNodeFieldKeys ((List.range n).map vName) ts =
      (List.range n).map vName ++ ["output_type", "resolve_name"] := by
  have hzip : (((List.range n).map vName).zip ts).map Prod.fst =
      (List.range n).map vName :=
    List.map_fst_zip _ _ (by simp [hlen])
  have hot : ("output_type" : String).data = 'o' :: "utput_type".data := rfl
  have hrn : ("resolve_name" : String).data = 'r' :: "esolve_name".data := rfl
  have hpw : ((List.range n).map vName ++ ["output_type"]).Pairwise (· ≠ ·) := by
    rw [List.pairwise_append]
    refine ⟨vNamesPairwiseNe n, by simp, ?_⟩
    intro a ha b hb
    rcases List.mem_singleton.mp hb with rfl
    rcases List.mem_map.mp ha with ⟨i, _, rfl⟩
    exact vNameNeOfHead hot (by decide) i
  have hfold : ((List.range n).map vName ++ ["output_type"]).foldl dictKeyInsert [] =
      (List.range n).map vName ++ ["output_type"] := by
    rw [foldKeyInsertOfPairwise _ [] hpw (by simp), List.nil_append]
  have hnotmem : "resolve_name" ∉ (List.range n).map vName ++ ["output_type"] := by
    intro hmem
    rcases List.mem_append.mp hmem with hmem | hmem
    · rcases List.mem_map.mp hmem with ⟨i, _, hvi⟩
      exact vNameNeOfHead hrn (by decide) i hvi
    · rcases List.mem_singleton.mp hmem with h
      exact absurd h (by decide)
  rw [udfNodeFieldKeys, hzip, hfold, dictKeyInsert, if_neg hnotmem, List.append_assoc]
  rfl

/-- Claim C10: `existing_udf` with `parameters` omitted and `n` input
types fabricates exactly the parameter names `v0, v1, ..., v(n-1)` in
argument order; they are pairwise distinct, the call succeeds, and the
minted node kind's member keys are those names in order (followed by the
`output_type` and `resolve_name` members). -/
theorem claim_C10 (st : UdfState) (name : String) (input_types : List IbisType)
    (output_type : IbisType) (schema : Option String) :
    resolveParams none input_types = .ok ((List.range input_types.length).map vName) ∧
    ((List.range input_types.length).map vName).Pairwise (· ≠ ·) ∧
    ∃ w : Wrapper, ∃ st2 : UdfState,
      existing_udf st name input_types output_type schema none = (.ok w, st2) ∧
      w.node.fieldKeys =
        (List.range input_types.length).map vName ++ ["output_type", "resolve_name"] := by
  refine ⟨rfl, vNamesPairwiseNe _, ?_⟩
  refine ⟨_, _, rfl, ?_⟩
  show udfNodeFieldKeys ((List.range input_types.length).map vName) input_types = _
  exact udfNodeFieldKeysFabricated input_types.length input_types rfl

/-! ### LineNums visitor and remove_decorators (api.py lines 132-170) -/

mutual
/-- A Python `ast` node, as far as the `LineNums` visitor observes it:
whether it is a `FunctionDef`, its `lineno` attribute (`none` on nodes
without one, e.g. `Module` and `arguments`), its `decorator_list` field,
its remaining direct AST-node fields (for a `FunctionDef`: `args`, plus
`returns` when that is a node), and the AST nodes inside its list fields
(e.g. `body`).  `ast.iter_fields` yields direct fields and list fields
alike; `visit_FunctionDef` recurses only into the direct ones. -/
inductive PyAst : Type where
  | node (isFunctionDef : Bool) (lineno : Option Nat)
      (decorators : PyAstList) (direct : PyAstList) (listed : PyAstList)

/-- A list field of a Python `ast` node. -/
inductive PyAstList : Type where
  | nil
  | cons (hd : PyAst) (tl : PyAstList)
end

/-- The visitor state (api.py lines 135-137): `first_non_decorator_line`
and `decorator_lines`. -/
structure VisitState : Type where
  first : Option Nat
  decoLines : List Nat
deriving DecidableEq, Repr

/-- api.py lines 151-158: if the node has a `lineno`, keep the minimum
observed so far. -/
def recordLine (s : VisitState) : Option Nat → VisitState
  | none => s
  | some l =>
    match s.first with
    | none => { s with first := some l }
    | some m => { s with first := some (min m l) }

/-- api.py lines 140-142: the `lineno` of each decorator node. -/
def decoLinenos : PyAstList → List Nat
  | .nil => []
  | .cons (.node _ l _ _ _) tl =>
    (match l with | some n => [n] | none => []) ++ decoLinenos tl

mutual
/-- `NodeVisitor.visit`: dispatch to `visit_FunctionDef` (api.py lines
139-148: extend `decorator_lines`, then `generic_visit` each direct
AST-node field other than `decorator_list`, skipping list fields such as
`body`) or to the overridden `generic_visit` for every other node. -/
def visit (s : VisitState) : PyAst → VisitState
  | .node true _ decos direct _ =>
    genericVisitList { s with decoLines := s.decoLines ++ decoLinenos decos } direct
  | .node false l decos direct listed =>
    visitList (visitList (visitList (recordLine s l) decos) direct) listed

/-- `LineNums.generic_visit` (api.py lines 150-159) when called directly
(bypassing dispatch): record the node's `lineno`, then visit every child
of every field — `ast.NodeVisitor.generic_visit` iterates all fields —
via dispatching `visit`. -/
def genericVisit (s : VisitState) : PyAst → VisitState
  | .node _ l decos direct listed =>
    visitList (visitList (visitList (recordLine s l) decos) direct) listed

/-- Visit each node of a field via dispatching `visit`. -/
def visitList (s : VisitState) : PyAstList → VisitState
  | .nil => s
  | .cons a tl => visitList (visit s a) tl

/-- Apply `generic_visit` directly to each node (api.py lines 143-148). -/
def genericVisitList (s : VisitState) : PyAstList → VisitState
  | .nil => s
  | .cons a tl => genericVisitList (genericVisit s a) tl
end

/-- The freshly constructed visitor (api.py line 166). -/
def initVisit : VisitState := ⟨none, []⟩

/-- api.py lines 162-170: `remove_decorators`.  The source arrives as
`splitlines(keepends=True)` (each line carries its terminator) together
with its parse tree — `ast.parse` is a Python-runtime facility, so the
tree accompanies the text in the model.  `''.join(lines[first - 1:])` is
`String.join (drop (first - 1))`; `none` embeds the `TypeError` raised by
`None - 1` when the visitor recorded no line number. -/
def remove_decorators (srcLines : List String) (tree : PyAst) : Option String :=
  match (visit initVisit tree).first with
  | none => none
  | some l => some (String.join (srcLines.drop (l - 1)))

/-! ### A concrete family of parsed function sources

Modelled from the host parser's documented behaviour (spec section 4.2
describes the visitor over "the function definition node"): a module whose
single statement is a function definition with `d` single-line decorators
on lines `1..d`, a single-line `def` header on line `d+1` whose `n`
parameter nodes each carry the header's line number (the `arguments`
container node itself has no `lineno`), and one body statement per
following line, held in the `body` list field. -/

/-- An `ast.arg` parameter node on line `l`. -/
def mkArg (l : Nat) : PyAst := .node false (some l) .nil .nil .nil

/-- `n` parameter nodes, all on line `l`. -/
def argsOf : Nat → Nat → PyAstList
  | 0, _ => .nil
  | n + 1, l => .cons (mkArg l) (argsOf n l)

/-- The `ast.arguments` node: no `lineno`, parameters in a list field. -/
def argumentsNode (n l : Nat) : PyAst := .node false none .nil .nil (argsOf n l)

/-- A decorator expression node on line `l`. -/
def decoNode (l : Nat) : PyAst := .node false (some l) .nil .nil .nil

/-- `k` decorator nodes on lines `l, l+1, ...`. -/
def decosOf : Nat → Nat → PyAstList
  | 0, _ => .nil
  | k + 1, l => .cons (decoNode l) (decosOf k (l + 1))

/-- A body statement node on line `l`. -/
def stmtNode (l : Nat) : PyAst := .node false (some l) .nil .nil .nil

/-- `k` body statement nodes on lines `l, l+1, ...`. -/
def bodyOf : Nat → Nat → PyAstList
  | 0, _ => .nil
  | k + 1, l => .cons (stmtNode l) (bodyOf k (l + 1))

/-- A function source of the modelled family: decorator lines, a def
header line with `params` parameters, body lines (text kept without the
terminator; rendering appends one `'\n'` per line). -/
structure SimpleFuncSource : Type where
  decorators : List String
  header : String
  params : Nat
  body : List String

/-- `splitlines(keepends=True)` of the rendered source. -/
def toLines (s : SimpleFuncSource) : List String :=
  s.decorators.map (· ++ "\n") ++ (s.header ++ "\n") :: s.body.map (· ++ "\n")

/-- The parse tree of the rendered source. -/
def toAst (s : SimpleFuncSource) : PyAst :=
  .node false none .nil .nil
    (.cons
      (.node true (some (s.decorators.length + 1))
        (decosOf s.decorators.length 1)
        (.cons (argumentsNode s.params (s.decorators.length + 1)) .nil)
        (bodyOf s.body.length (s.decorators.length + 2)))
      .nil)

/-! ### Visitor computation on the modelled family -/

theorem visitListArgsStay (n l : Nat) (ds : List Nat) :
    visitList ⟨some l, ds⟩ (argsOf n l) = ⟨some l, ds⟩ := by
  induction n with
  | zero => rfl
  | succ n ih =>
    show visitList (visit ⟨some l, ds⟩ (mkArg l)) (argsOf n l) = _
    have h1 : visit ⟨some l, ds⟩ (mkArg l) = ⟨some l, ds⟩ := by
      simp [visit, mkArg, recordLine, visitList]
    rw [h1, ih]

theorem visitListArgsFirst (n l : Nat) (ds : List Nat) (h : 0 < n) :
    visitList ⟨none, ds⟩ (argsOf n l) = ⟨some l, ds⟩ := by
  match n, h with
  | n + 1, _ =>
    show visitList (visit ⟨none, ds⟩ (mkArg l)) (argsOf n l) = _
    have h1 : visit ⟨none, ds⟩ (mkArg l) = ⟨some l, ds⟩ := by
      simp [visit, mkArg, recordLine, visitList]
    rw [h1, visitListArgsStay]

theorem visitToAst (s : SimpleFuncSource) (h : 0 < s.params) :
    visit initVisit (toAst s) =
      ⟨some (s.decorators.length + 1), decoLinenos (decosOf s.decorators.length 1)⟩ := by
  show visit initVisit (toAst s) = _
  simp only [toAst, initVisit, argumentsNode, visit, visitList, genericVisitList,
    genericVisit, recordLine, List.nil_append]
  exact visitListArgsFirst s.params (s.decorators.length + 1) _ h

/-! ### Claims C2 and C3 -/

/-- Claim C2 (amended): on the modelled family — single-line decorators,
then a single `def` header line carrying at least one parameter, then the
body — `remove_decorators` returns exactly the substring of the original
text from the `def` line through the end, line endings preserved; with no
decorators it is the identity.  (The original universal claim fails on
parameterless, annotation-free definitions, where the visitor records no
line and the function raises `TypeError` instead of returning a string.) -/
theorem claim_C2_amended (s : SimpleFuncSource) (h : 0 < s.params) :
    remove_decorators (toLines s) (toAst s) =
      some (String.join ((s.header ++ "\n") :: s.body.map (· ++ "\n"))) ∧
    (s.decorators = [] →
      remove_decorators (toLines s) (toAst s) = some (String.join (toLines s))) := by
  have hv := visitToAst s h
  have hmain : remove_decorators (toLines s) (toAst s) =
      some (String.join ((s.header ++ "\n") :: s.body.map (· ++ "\n"))) := by
    rw [remove_decorators, hv]
    show some (String.join ((toLines s).drop (s.decorators.length + 1 - 1))) = _
    congr 1
    rw [Nat.add_sub_cancel, toLines,
      show s.decorators.length = (s.decorators.map (· ++ "\n")).length by
        rw [List.length_map],
      List.drop_left]
  refine ⟨hmain, fun hd => ?_⟩
  rw [hmain, toLines, hd]
  rfl

/-- Witness for the amended claim C2 at a one-decorator, one-parameter
source: the decorator line is removed exactly. -/
theorem claim_C2_witness :
    remove_decorators (toLines ⟨["@dec"], "def f(x):", 1, ["    return x"]⟩)
        (toAst ⟨["@dec"], "def f(x):", 1, ["    return x"]⟩) =
      some "def f(x):\n    return x\n" := by
  rw [(claim_C2_amended ⟨["@dec"], "def f(x):", 1, ["    return x"]⟩ (by decide)).1]
  rfl

/-- The decorator-free, parameterless source `def f():\n    return 1\n`. -/
def noDecorsNoParams : SimpleFuncSource := ⟨[], "def f():", 0, ["    return 1"]⟩

/-- Claim C2 counterexample: on the decorator-free source
`def f():\n    return 1\n` the claimed identity fails — the call raises
`TypeError` (embedded as `none`) instead of returning the text. -/
theorem claim_C2_counterexample :
    remove_decorators (toLines noDecorsNoParams) (toAst noDecorsNoParams) ≠
      some (String.join (toLines noDecorsNoParams)) := by
  have h : remove_decorators (toLines noDecorsNoParams) (toAst noDecorsNoParams) =
      none := rfl
  rw [h]
  exact fun hc => Option.noConfusion hc

/-- The `arguments` node of a parameterless, annotation-free signature:
no `lineno`, no children in any field. -/
def emptyArguments : PyAst := .node false none .nil .nil .nil

/-- Claim C3: for every source whose function definition has no
parameters, no parameter annotations and no return annotation — so that
the only direct AST-node field of the `FunctionDef`, the bare `arguments`
node, carries no line number and `visit_FunctionDef` never reaches the
`body` list field — `remove_decorators` ends with
`first_non_decorator_line` still `None`, and `None - 1` raises
`TypeError` (embedded as `none`) instead of returning a string; on such
decorator-free input the function is therefore not the identity. -/
theorem claim_C3 (srcLines : List String) (fdLine : Option Nat)
    (decos body : PyAstList) :
    remove_decorators srcLines
      (.node false none .nil .nil
        (.cons (.node true fdLine decos (.cons emptyArguments .nil) body) .nil)) =
      none := by
  rw [remove_decorators]
  have hv : visit initVisit
      (.node false none .nil .nil
        (.cons (.node true fdLine decos (.cons emptyArguments .nil) body) .nil)) =
      ⟨none, decoLinenos decos⟩ := by
    simp [visit, visitList, genericVisitList, genericVisit, recordLine, initVisit,
      emptyArguments]
  rw [hv]

/-! ### func_to_udf (api.py lines 173-256) -/

/-- A Python host function as `func_to_udf` consumes it: its `__name__`,
its declared parameter names (`inspect.signature(...).parameters.keys()`,
in declaration order), and its source after indentation normalization —
`inspect.getsource` and `textwrap.dedent` are Python-runtime facilities,
so the model carries their output: the dedented source as kept-ends lines
together with its parse tree. -/
structure PyFunc : Type where
  name : String
  params : List String
  srcLines : List String
  srcAst : PyAst

/-- api.py lines 220-226: `', '.join('{name} {type}'.format(...))` over
`zip(parameter_names, in_types)`; a failed catalog lookup is the
generator's `KeyError`, raised while joining. -/
def renderSig (parameter_names : List String) (in_types : List IbisType) :
    Except UdfError String := do
  let entries ← (parameter_names.zip in_types).mapM
    (fun pt => match sqlTypeNameOf pt.2 with
      | some ty => Except.ok (pt.1 ++ " " ++ ty)
      | none => Except.error UdfError.keyError)
  return String.intercalate ", " entries

/-- api.py line 209: `(schema + '.') if schema else ''` — Python
truthiness, so both `None` and the empty string give no qualifier. -/
def schemaFragment : Option String → String
  | none => ""
  | some s => if s = "" then "" else s ++ "."

/-- api.py lines 210-218 and 237-248: the template literal, instantiated.
`replace` fills the `{replace}` hole with `' OR REPLACE '` or `''`. -/
def formatSql (replace : Bool) (schema_fragment internal_name signature
    return_type func_definition py_name args : String) : String :=
  "CREATE " ++ (if replace then " OR REPLACE " else "") ++ " FUNCTION\n" ++
    schema_fragment ++ internal_name ++ "(" ++ signature ++ ")\n" ++
    "RETURNS " ++ return_type ++ "\n" ++
    "LANGUAGE plpythonu\nAS $$\n" ++
    func_definition ++ "\n" ++
    "return " ++ py_name ++ "(" ++ args ++ ")\n" ++
    "$$;\n"

/-- api.py lines 173-256: `func_to_udf`.  The third component of the
result is the trace of statements submitted to `conn.execute` during the
call (the connection itself is an external collaborator; its own failures
are out of scope).  Evaluation order follows the source: name resolution,
the two inference checks, signature rendering, return-type lookup, source
transformation, `conn.execute`, then `existing_udf`. -/
def func_to_udf (st : UdfState) (python_func : PyFunc)
    (in_types : Option (List IbisType)) (out_type : Option IbisType)
    (schema : Option String) (replace : Bool) (name : Option String) :
    Except UdfError Wrapper × UdfState × List String :=
  let internal_name := match name with | none => python_func.name | some n => n
  let parameter_names := python_func.params
  match in_types with
  | none => (.error (.notImplementedError "inferring in_types not implemented"), st, [])
  | some its =>
    match out_type with
    | none => (.error (.notImplementedError "inferring out_type not implemented"), st, [])
    | some ot =>
      match renderSig parameter_names its with
      | .error e => (.error e, st, [])
      | .ok postgres_signature =>
        match sqlTypeNameOf ot with
        | none => (.error .keyError, st, [])
        | some return_type =>
          match remove_decorators python_func.srcLines python_func.srcAst with
          | none => (.error .typeError, st, [])
          | some func_definition =>
            let formatted_sql := formatSql replace (schemaFragment schema)
              internal_name postgres_signature return_type func_definition
              python_func.name (String.intercalate ", " parameter_names)
            let r := existing_udf st internal_name its ot schema (some parameter_names)
            (r.1, r.2, [formatted_sql])

/-! ### Claims C8, C7 and C1 -/

/-- Claim C8: when `in_types` or `out_type` is omitted, `func_to_udf`
raises `NotImplementedError` without attempting inference, without
touching the registration state and without submitting any statement to
the connection. -/
theorem claim_C8 (st : UdfState) (python_func : PyFunc)
    (in_types : Option (List IbisType)) (out_type : Option IbisType)
    (schema : Option String) (replace : Bool) (name : Option String)
    (h : in_types = none ∨ out_type = none) :
    ∃ msg, func_to_udf st python_func in_types out_type schema replace name =
      (.error (.notImplementedError msg), st, []) := by
  rcases h with h | h
  · subst h
    exact ⟨_, rfl⟩
  · subst h
    cases in_types with
    | none => exact ⟨_, rfl⟩
    | some its => exact ⟨_, rfl⟩

/-- The host function of the repository's own smoke test,
`mult_a_b(a, b) = a * b`. -/
def multAB : PyFunc :=
  ⟨"mult_a_b", ["a", "b"],
    ["def mult_a_b(a, b):\n", "    return a * b\n"],
    toAst ⟨[], "def mult_a_b(a, b):", 2, ["    return a * b"]⟩⟩

/-- Witness for claim C8 at a concrete call omitting both types. -/
theorem claim_C8_witness :
    ∃ msg, func_to_udf initUdfState multAB none none none false none =
      (.error (.notImplementedError msg), initUdfState, []) :=
  claim_C8 initUdfState multAB none none none false none (Or.inl rfl)

/-- Claim C7: with explicit types, the one statement submitted to the
connection is, in order: the `CREATE [OR REPLACE] FUNCTION` header (the
`OR REPLACE` filler appears exactly when `replace` is true), the optional
schema qualifier and the function's name, the rendered parameter list,
the `RETURNS` clause with the rendered output type, the
`LANGUAGE plpythonu` clause, and a `$$` body holding the transformed
source followed by a line returning a call of the host function's
`__name__` over the resolved parameter names. -/
theorem claim_C7 (st : UdfState) (f : PyFunc) (its : List IbisType)
    (ot : IbisType) (schema : Option String) (replace : Bool)
    (name : Option String) (sig rty fd : String)
    (hsig : renderSig f.params its = .ok sig)
    (hrty : sqlTypeNameOf ot = some rty)
    (hfd : remove_decorators f.srcLines f.srcAst = some fd) :
    (func_to_udf st f (some its) (some ot) schema replace name).2.2 =
      ["CREATE " ++ (if replace then " OR REPLACE " else "") ++ " FUNCTION\n" ++
        schemaFragment schema ++ (match name with | none => f.name | some n => n) ++
        "(" ++ sig ++ ")\n" ++
        "RETURNS " ++ rty ++ "\n" ++
        "LANGUAGE plpythonu\nAS $$\n" ++
        fd ++ "\n" ++
        "return " ++ f.name ++ "(" ++ String.intercalate ", " f.params ++ ")\n" ++
        "$$;\n"] := by
  simp [func_to_udf, hsig, hrty, hfd, formatSql]

/-- Witness for claim C7: the deploy of the repository's smoke test
(`mult_a_b`, `(int32, int32) -> int32`, schema `udf_test_1`,
`replace=True`) submits exactly the expected statement text. -/
theorem claim_C7_witness :
    (func_to_udf initUdfState multAB
        (some [mkIbis .int32, mkIbis .int32]) (some (mkIbis .int32))
        (some "udf_test_1") true none).2.2 =
      ["CREATE  OR REPLACE  FUNCTION\nudf_test_1.mult_a_b(a INTEGER, b INTEGER)\nRETURNS INTEGER\nLANGUAGE plpythonu\nAS $$\ndef mult_a_b(a, b):\n    return a * b\n\nreturn mult_a_b(a, b)\n$$;\n"] := by
  rw [claim_C7 initUdfState multAB [mkIbis .int32, mkIbis .int32] (mkIbis .int32)
    (some "udf_test_1") true none "a INTEGER, b INTEGER" "INTEGER"
    "def mult_a_b(a, b):\n    return a * b\n" rfl rfl rfl]
  rfl

/-- Claim C1 counterexample: deploying `mult_a_b` (two declared
parameters) with a single input type does submit a statement to the
connection — the trace is nonempty, so `conn.execute` is reached — and
only afterwards fails with the `ValueError` raised inside
`existing_udf`, contradicting "reported before any database call". -/
theorem claim_C1_counterexample :
    (func_to_udf initUdfState multAB (some [mkIbis .int32])
        (some (mkIbis .int32)) none false none).2.2 ≠ [] ∧
    (func_to_udf initUdfState multAB (some [mkIbis .int32])
        (some (mkIbis .int32)) none false none).1 =
      .error (.valueError (mismatchMsg 1 2)) := by
  constructor
  · have hlen : (func_to_udf initUdfState multAB (some [mkIbis .int32])
        (some (mkIbis .int32)) none false none).2.2.length = 1 := rfl
    intro h
    rw [h] at hlen
    exact absurd hlen (by decide)
  · rfl

/-- Claim C1 (amended): when the host function's declared parameter count
differs from `len(in_types)` (and rendering succeeds), `func_to_udf`
first submits the composed statement — whose parameter list `zip`
silently truncates to the shorter of the two sequences — and only then
fails with the `ValueError` raised by `existing_udf`; the registration
state is left untouched. -/
theorem claim_C1_amended (st : UdfState) (f : PyFunc) (its : List IbisType)
    (ot : IbisType) (schema : Option String) (replace : Bool)
    (name : Option String) (sig rty fd : String)
    (hmis : f.params.length ≠ its.length)
    (hsig : renderSig f.params its = .ok sig)
    (hrty : sqlTypeNameOf ot = some rty)
    (hfd : remove_decorators f.srcLines f.srcAst = some fd) :
    ∃ stmt, func_to_udf st f (some its) (some ot) schema replace name =
      (.error (.valueError (mismatchMsg its.length f.params.length)), st, [stmt]) := by
  refine ⟨formatSql replace (schemaFragment schema)
    (match name with | none => f.name | some n => n) sig rty fd f.name
    (String.intercalate ", " f.params), ?_⟩
  have hmis' : its.length ≠ f.params.length := fun e => hmis e.symm
  simp [func_to_udf, hsig, hrty, hfd, existing_udf, resolveParams, hmis']

/-- Witness for the amended claim C1 at the concrete mismatched deploy. -/
theorem claim_C1_witness :
    ∃ stmt, func_to_udf initUdfState multAB (some [mkIbis .int32])
        (some (mkIbis .int32)) none false none =
      (.error (.valueError (mismatchMsg 1 2)), initUdfState, [stmt]) :=
  claim_C1_amended initUdfState multAB [mkIbis .int32] (mkIbis .int32) none
    false none "a INTEGER" "INTEGER" "def mult_a_b(a, b):\n    return a * b\n"
    (by decide) rfl rfl rfl

end IbisUdf
